import Mathlib

/-!
Verification of the S3 Object Lambda default-configuration request transformer.

The development shallowly embeds the two source files of the repository:

* `src/function/nodejs_20_x/src/request/utils.ts` — request utilities
  (query/header extraction, range/part-number application, header
  stripping, the outbound request built by `makeS3Request`);
* `src/function/nodejs_20_x/src/s3objectlambda.ts` — the dispatcher; and
  the `ListObjectsHandler` class (`handleListObjectsRequest`,
  `handleListObjectsRequestOriginal`, `writeResponse`).

External collaborators are modelled as follows:

* the WHATWG `URL`/`URLSearchParams` platform classes and JavaScript's
  `decodeURIComponent`/`toLowerCase` are modelled over `List Char`
  (percent-decoding restricted to single-byte codepoints, which covers
  every input considered here);
* the XML list transformer (`listobject_xml_transformer`, not part of the
  sources) is modelled from the spec at the level of the XML document
  tree — the string/DOM layer is the external XML library;
* network effects (`fetch`, the storage SDK `send`) are modelled by
  passing their outcome — a resolved response or a rejection — as an
  explicit argument, and an async function's result is an `Outcome` that
  is either a returned response or an unhandled exception.

JavaScript data is modelled as: objects/`Map`s as ordered association
lists (`List (String × String)`), `undefined`-able values as `Option`,
buffers as `List Nat`.
-/

namespace S3OL

/-! ## JavaScript string primitives (platform model) -/

/-- Model of JavaScript `String.prototype.toLowerCase` (ASCII letters,
which is all `Char.toLower` affects and all the sources rely on). -/
def lowerStr (s : String) : String := ⟨s.data.map Char.toLower⟩

/-- Model of JavaScript `String.prototype.startsWith`. -/
def startsWithJs (s pre : String) : Bool := pre.data.isPrefixOf s.data

/-- Model of JavaScript `String.prototype.endsWith`. -/
def endsWithJs (s suf : String) : Bool := suf.data.isSuffixOf s.data

/-- Hexadecimal digit value of a character, as used in percent-escapes
(computed from the character code: `0`-`9`, `a`-`f`, `A`-`F`). -/
def hexVal (c : Char) : Option Nat :=
  if 48 ≤ c.toNat ∧ c.toNat ≤ 57 then some (c.toNat - 48)
  else if 97 ≤ c.toNat ∧ c.toNat ≤ 102 then some (c.toNat - 87)
  else if 65 ≤ c.toNat ∧ c.toNat ≤ 70 then some (c.toNat - 55)
  else none

/-- Percent-decoding over characters: `%hh` becomes the character with that
code (single-byte model); malformed escapes are left as-is (lenient model
of the platform decoder). -/
def percentDecodeChars : List Char → List Char
  | [] => []
  | c :: rest =>
    if c = '%' then
      match rest with
      | h1 :: h2 :: rest2 =>
        match hexVal h1, hexVal h2 with
        | some a, some b => Char.ofNat (16 * a + b) :: percentDecodeChars rest2
        | _, _ => c :: percentDecodeChars (h1 :: h2 :: rest2)
      | [] => [c]
      | [h1] => [c, h1]
    else c :: percentDecodeChars rest

/-- `application/x-www-form-urlencoded` treats `+` as a space before
percent-decoding (WHATWG `URLSearchParams`). -/
def plusToSpace (c : Char) : Char := if c = '+' then ' ' else c

/-- Decoding applied by `URLSearchParams` to parameter names and values. -/
def formDecodeChars (l : List Char) : List Char :=
  percentDecodeChars (l.map plusToSpace)

/-- Model of JavaScript `decodeURIComponent` (no `+` handling). -/
def decodeURIComponentJs (s : String) : String := ⟨percentDecodeChars s.data⟩

/-! ## WHATWG URL query model -/

/-- Split a character list at the first occurrence of `sep`; the second
component is `none` when `sep` does not occur. -/
def breakAtFirst (sep : Char) : List Char → List Char × Option (List Char)
  | [] => ([], none)
  | c :: rest =>
    if c = sep then ([], some rest)
    else
      let r := breakAtFirst sep rest
      (c :: r.1, r.2)

/-- Split a character list on every occurrence of `sep`. -/
def splitOnChar (sep : Char) : List Char → List (List Char)
  | [] => [[]]
  | c :: rest =>
    match splitOnChar sep rest with
    | [] => [[c]]
    | g :: gs => if c = sep then [] :: g :: gs else (c :: g) :: gs

/-- One `name=value` pair of a query string: the name is everything before
the first `=`, the value everything after it (empty when there is no `=`);
both sides are form-decoded. Empty fragments between `&`s are skipped. -/
def queryPairOf (g : List Char) : Option (List Char × List Char) :=
  match g with
  | [] => none
  | _ =>
    let r := breakAtFirst '=' g
    some (formDecodeChars r.1, formDecodeChars (r.2.getD []))

/-- Model of `new URL(u).searchParams.get(nm)`: the query is everything
after the first `?` and before a `#`; pairs are split on `&`; the first
pair whose decoded name equals `nm` yields its decoded value. -/
def searchParamsGet (u : String) (nm : String) : Option String :=
  match (breakAtFirst '?' u.data).2 with
  | none => none
  | some afterQ =>
    let q := afterQ.takeWhile (fun c => !(c = '#'))
    let pairs := (splitOnChar '&' q).filterMap queryPairOf
    (pairs.find? (fun pr => pr.1 == nm.data)).map (fun pr => (⟨pr.2⟩ : String))

/-! ## `request/utils.ts` — request utilities -/

/-- `UserRequest` from `s3objectlambda_event.types`: inbound request
descriptor with a url and a headers object. -/
structure UserRequest where
  url : String
  headers : List (String × String)

/-- Query parameter name constant `RANGE` (utils.ts line 13). -/
def RANGE : String := "Range"

/-- Query parameter name constant `PART_NUMBER` (utils.ts line 14). -/
def PART_NUMBER : String := "partNumber"

/-- `getQueryParam` (utils.ts lines 101-105): lowercases the whole url and
the parameter name, then reads the parameter from `new URL(url).searchParams`. -/
def getQueryParam (url : String) (nm : String) : Option String :=
  searchParamsGet (lowerStr url) (lowerStr nm)

/-- Lookup in `new Map(Object.entries(headers).map(([k, v]) => [k.toLowerCase(), v]))`
(utils.ts line 34): with duplicate lowercased keys, the `Map` keeps the
value set last, hence the reversed `find?`. -/
def jsMapLowerGet (hs : List (String × String)) (k : String) : Option String :=
  (hs.reverse.find? (fun p => lowerStr p.1 == k)).map (fun p => p.2)

/-- `getPartNumber` (utils.ts lines 23-26): reads the part number from the
request query parameters only. -/
def getPartNumber (userRequest : UserRequest) : Option String :=
  getQueryParam userRequest.url PART_NUMBER

/-- `getRange` (utils.ts lines 32-42): case-insensitive header lookup
first, query parameter as fallback. -/
def getRange (userRequest : UserRequest) : Option String :=
  match jsMapLowerGet userRequest.headers (lowerStr RANGE) with
  | some v => some v
  | none => getQueryParam userRequest.url RANGE

/-- `ErrorResponse` shape `{statusCode, errorMessage}`. -/
structure ErrResp where
  statusCode : Nat
  errorMessage : String
deriving DecidableEq

/-- `RangeResponse` from `range_response.types`. -/
structure RangeResponse where
  object : Option (List Nat) := none
  headers : Option (List (String × String)) := none
  hasError : Bool
  errorResponse : Option ErrResp := none
deriving DecidableEq

/-- `applyRangeOrPartNumber` (utils.ts lines 53-67). `mapRange` and
`mapPartNumber` live in `response/range_mapper` / `response/part_number_mapper`,
outside the sources, so they are passed as arguments. -/
def applyRangeOrPartNumber (mapRange mapPartNumber : String → List Nat → RangeResponse)
    (transformedObject : List Nat) (userRequest : UserRequest) : RangeResponse :=
  match getRange userRequest with
  | some range => mapRange range transformedObject
  | none =>
    match getPartNumber userRequest with
    | some pn => mapPartNumber pn transformedObject
    | none => { object := some transformedObject, hasError := false }

/-- `applyRangeOrPartNumberHeaders` (utils.ts lines 79-94), the header-map
variant. -/
def applyRangeOrPartNumberHeaders (mapRangeHead mapPartNumberHead :
    String → List (String × String) → RangeResponse)
    (transformedHeaders : List (String × String)) (userRequest : UserRequest) : RangeResponse :=
  match getRange userRequest with
  | some range => mapRangeHead range transformedHeaders
  | none =>
    match getPartNumber userRequest with
    | some pn => mapPartNumberHead pn transformedHeaders
    | none => { headers := some transformedHeaders, hasError := false }

/-- The header allow-list of `getRequestHeaders` (utils.ts lines 150-151). -/
def headersToBePresignedAllow : List String :=
  ["x-amz-checksum-mode", "x-amz-request-payer", "x-amz-expected-bucket-owner", "If-Match",
    "If-Modified-Since", "If-None-Match", "If-Unmodified-Since"]

/-- The header strip-list of `removeSignedRequestHeaders` (utils.ts
lines 168-169): the allow-list of `getRequestHeaders` plus `Host`/`host`. -/
def headersToBePresignedRemove : List String :=
  ["Host", "host", "x-amz-checksum-mode", "x-amz-request-payer", "x-amz-expected-bucket-owner",
    "If-Match", "If-Modified-Since", "If-None-Match", "If-Unmodified-Since"]

/-- `getRequestHeaders` (utils.ts lines 148-160): keeps exactly the
allow-listed headers (case-sensitive `includes`). -/
def getRequestHeaders (headersObj : List (String × String)) : List (String × String) :=
  headersObj.filter (fun p => headersToBePresignedAllow.contains p.1)

/-- `removeSignedRequestHeaders` (utils.ts lines 166-178): keeps every
header whose (case-sensitive) name is NOT on the strip-list. -/
def removeSignedRequestHeaders (headersObj : List (String × String)) : List (String × String) :=
  headersObj.filter (fun p => !(headersToBePresignedRemove.contains p.1))

/-- JavaScript property access `obj.key` on a headers record. -/
def jsGet (hs : List (String × String)) (k : String) : Option String :=
  (hs.find? (fun p => p.1 == k)).map (fun p => p.2)

/-- JavaScript truthiness of an optional string (`undefined` and `''` are
falsy), returning the value when truthy. -/
def truthyOpt : Option String → Option String
  | some s => if s = "" then none else some s
  | none => none

/-- Model of JavaScript `parseInt` at radix 10: optional sign, then the
longest digit run; `NaN` (no digits) becomes `none`. -/
def parseIntJs (s : String) : Option Int :=
  let core : List Char → Option Nat := fun cs =>
    match cs.takeWhile Char.isDigit with
    | [] => none
    | ds => some (Nat.ofDigits 10 ((ds.filterMap hexVal).reverse))
  match s.data with
  | '-' :: rest => (core rest).map (fun n => -(n : Int))
  | '+' :: rest => (core rest).map (fun n => (n : Int))
  | cs => (core cs).map (fun n => (n : Int))

/-- The headers of the `fetch` issued by `makeS3Request` (utils.ts
lines 131-140): only a truthy lowercase `range` and a truthy lowercase
`partnumber` surviving `removeSignedRequestHeaders` are sent. -/
def makeS3RequestFetchHeaders (userHeaders : List (String × String)) : List (String × String) :=
  let headers := removeSignedRequestHeaders userHeaders
  (match truthyOpt (jsGet headers "range") with
    | some v => [("range", v)]
    | none => []) ++
  (match truthyOpt (jsGet headers "partnumber") with
    | some v => [("partnumber", v)]
    | none => [])

/-- The `Range` parameter of the `GetObjectCommand` signed by
`makeS3Request` (utils.ts line 121): present whenever the stripped headers
still carry a truthy `range`. -/
def makeS3RequestSignedRange (userHeaders : List (String × String)) : Option String :=
  truthyOpt (jsGet (removeSignedRequestHeaders userHeaders) "range")

/-- The `PartNumber` parameter of the `GetObjectCommand` signed by
`makeS3Request` (utils.ts line 123). -/
def makeS3RequestSignedPartNumber (userHeaders : List (String × String)) : Option Int :=
  (truthyOpt (jsGet (removeSignedRequestHeaders userHeaders) "partnumber")).bind parseIntJs

/-! ## XML list transformer

Modelled from the spec: the `ListObjectsXmlTransformer` class
(`utils/listobject_xml_transformer`) is not among the sources — only its
callers are — so `parse`/`serialize` below follow the spec's contract
(section 4.2): fixed element ordering and naming on serialization,
tolerance of both V1 (`Marker`/`NextMarker`) and V2
(`ContinuationToken`/`NextContinuationToken`) shapes on parsing, and
`none` on malformed documents. The transformer is modelled over the XML
document tree; rendering a tree to text is the external XML library. -/

/-- An XML document tree: elements with children, and text nodes. -/
inductive Xml where
  | elem (nm : String) (children : List Xml)
  | txt (s : String)

/-- Decimal digit character for a digit value (used by the serializer). -/
def digitChar (d : Nat) : Char :=
  if d < 10 then Char.ofNat (48 + d) else '*'

/-- Decimal digit value of a character (used by the parser). -/
def digitVal (c : Char) : Option Nat :=
  if 48 ≤ c.toNat ∧ c.toNat ≤ 57 then some (c.toNat - 48) else none

/-- Little-endian decimal digits of `n`, with explicit fuel so that the
recursion is structural (`fuel ≥ n` makes it exact). -/
def natDigitsRev : Nat → Nat → List Nat
  | _, 0 => []
  | 0, _ + 1 => []
  | fuel + 1, n + 1 => ((n + 1) % 10) :: natDigitsRev fuel ((n + 1) / 10)

/-- Render a natural number in decimal. -/
def natToStr (n : Nat) : String :=
  match n with
  | 0 => "0"
  | Nat.succ m => ⟨((natDigitsRev (m + 1) (m + 1)).map digitChar).reverse⟩

/-- `mapMOpt f l` maps `f` over `l`, failing when any element fails. -/
def mapMOpt (f : α → Option β) : List α → Option (List β)
  | [] => some []
  | a :: as =>
    match f a, mapMOpt f as with
    | some b, some bs => some (b :: bs)
    | _, _ => none

/-- Parse a decimal natural number; `none` on the empty string or any
non-digit character. -/
def strToNat (s : String) : Option Nat :=
  match s.data with
  | [] => none
  | c :: cs => (mapMOpt digitVal (c :: cs)).map (fun ds => Nat.ofDigits 10 ds.reverse)

/-- Render a boolean the way list XML does. -/
def boolToStr : Bool → String
  | true => "true"
  | false => "false"

/-- Parse a boolean from list XML text. -/
def strToBool (s : String) : Option Bool :=
  match s with
  | "true" => some true
  | "false" => some false
  | _ => none

/-- The element name of a node, `none` for text nodes. -/
def elemName : Xml → Option String
  | Xml.elem nm _ => some nm
  | Xml.txt _ => none

/-- The text content of an element holding a single text node. -/
def textOf : Xml → Option String
  | Xml.elem _ [Xml.txt s] => some s
  | _ => none

/-- The children of `l` that are elements named `n`. -/
def findElems (n : String) (l : List Xml) : List Xml :=
  l.filter (fun c => elemName c == some n)

/-- A required text field: exactly one element named `n` with text content. -/
def reqText (n : String) (l : List Xml) : Option String :=
  match findElems n l with
  | [e] => textOf e
  | _ => none

/-- An optional text field: at most one element named `n`. The outer
`Option` is parse failure, the inner one absence. -/
def optText (n : String) (l : List Xml) : Option (Option String) :=
  match findElems n l with
  | [] => some none
  | [e] => (textOf e).map some
  | _ => none

/-- An optional numeric text field. -/
def optNatText (n : String) (l : List Xml) : Option (Option Nat) :=
  match optText n l with
  | some none => some none
  | some (some s) => (strToNat s).map some
  | none => none

/-- One entry of `Contents` (spec section 3: `{Key, LastModified, Size}`;
`Size` is optional in the storage SDK's response shape and is carried
through by the handler, so it is optional here). -/
structure ListContent where
  Key : String
  LastModified : String
  Size : Option Nat
deriving DecidableEq

/-- `IBaseListObject` (spec section 3), with the V1 and V2 continuation
fields the parser must tolerate. `CommonPrefixes` is the ordered sequence
of prefix strings. -/
structure IBaseListObject where
  IsTruncated : Bool
  Marker : Option String
  NextMarker : Option String
  ContinuationToken : Option String
  NextContinuationToken : Option String
  MaxKeys : Nat
  Prefix : Option String
  Delimiter : Option String
  EncodingType : Option String
  Contents : List ListContent
  CommonPrefixes : List String
deriving DecidableEq

/-- Serialize an optional text field: absent fields produce no element. -/
def optSer (n : String) (o : Option String) : List Xml :=
  match o with
  | some s => [Xml.elem n [Xml.txt s]]
  | none => []

/-- Serialize one `Contents` entry. -/
def serializeContent (c : ListContent) : Xml :=
  Xml.elem "Contents"
    ([Xml.elem "Key" [Xml.txt c.Key], Xml.elem "LastModified" [Xml.txt c.LastModified]] ++
      optSer "Size" (c.Size.map natToStr))

/-- Serialize one `CommonPrefixes` entry. -/
def serializeCommonPfx (p : String) : Xml :=
  Xml.elem "CommonPrefixes" [Xml.elem "Prefix" [Xml.txt p]]

/-- `serialize` of the XML list transformer: fixed element ordering and
naming per the declared response schema. -/
def serializeListObject (x : IBaseListObject) : Xml :=
  Xml.elem "ListBucketResult"
    ([Xml.elem "IsTruncated" [Xml.txt (boolToStr x.IsTruncated)]]
      ++ optSer "Marker" x.Marker
      ++ optSer "NextMarker" x.NextMarker
      ++ optSer "ContinuationToken" x.ContinuationToken
      ++ optSer "NextContinuationToken" x.NextContinuationToken
      ++ [Xml.elem "MaxKeys" [Xml.txt (natToStr x.MaxKeys)]]
      ++ optSer "Prefix" x.Prefix
      ++ optSer "Delimiter" x.Delimiter
      ++ optSer "EncodingType" x.EncodingType
      ++ x.Contents.map serializeContent
      ++ x.CommonPrefixes.map serializeCommonPfx)

/-- Parse one `Contents` entry; a missing `Key` is a parse failure (spec:
entries missing a `Key` are structurally invalid). -/
def parseContent (x : Xml) : Option ListContent :=
  match x with
  | Xml.elem "Contents" l =>
    (reqText "Key" l).bind (fun k =>
      (reqText "LastModified" l).bind (fun lm =>
        (optNatText "Size" l).map (fun sz => ⟨k, lm, sz⟩)))
  | _ => none

/-- Parse one `CommonPrefixes` entry. -/
def parseCommonPfx (x : Xml) : Option String :=
  match x with
  | Xml.elem "CommonPrefixes" l => reqText "Prefix" l
  | _ => none

/-- `parse` of the XML list transformer: accepts both the V1 and the V2
shape; `none` on malformed documents. -/
def parseListObject (x : Xml) : Option IBaseListObject :=
  match x with
  | Xml.elem "ListBucketResult" l =>
    ((reqText "IsTruncated" l).bind strToBool).bind (fun it =>
      ((reqText "MaxKeys" l).bind strToNat).bind (fun mk =>
        (optText "Marker" l).bind (fun mrk =>
          (optText "NextMarker" l).bind (fun nmrk =>
            (optText "ContinuationToken" l).bind (fun ct =>
              (optText "NextContinuationToken" l).bind (fun nct =>
                (optText "Prefix" l).bind (fun pfx =>
                  (optText "Delimiter" l).bind (fun dl =>
                    (optText "EncodingType" l).bind (fun et =>
                      (mapMOpt parseContent (findElems "Contents" l)).bind (fun cs =>
                        (mapMOpt parseCommonPfx (findElems "CommonPrefixes" l)).map (fun cps =>
                          ⟨it, mrk, nmrk, ct, nct, mk, pfx, dl, et, cs, cps⟩)))))))))))
  | _ => none

/-! ## Effects and response shapes of the list handler -/

/-- A resolved `fetch` response: HTTP status and body, the body already
parsed to a document tree by the XML library (string/DOM layer external). -/
structure FetchResponse where
  status : Nat
  body : Xml

/-- The outcome of an awaited `fetch`: a resolved response or a rejected
promise (network failure). -/
inductive FetchOutcome where
  | ok (resp : FetchResponse)
  | networkError (msg : String)

/-- One entry of the storage SDK's `ListObjectsV2` response `Contents`
(every field optional in the SDK shape; `LastModified` is a `Date`,
modelled by its ISO-8601 rendering). -/
structure CfContent where
  Key : Option String
  LastModified : Option String
  Size : Option Nat

/-- The storage SDK's `ListObjectsV2` response, restricted to the fields
the handler reads (other spread-copied fields do not reach any claim). -/
structure CfListing where
  IsTruncated : Option Bool
  EncodingType : Option String
  MaxKeys : Option Nat
  Prefix : Option String
  Contents : Option (List CfContent)
  Delimiter : Option String
  CommonPrefixes : Option (List String)
  ContinuationToken : Option String
  NextContinuationToken : Option String

/-- The outcome of the awaited `cloudflare.send(new ListObjectsV2Command ...)`:
a listing, or a thrown SDK error (caught by the handler's `try`). -/
inductive CfOutcome where
  | ok (listing : CfListing)
  | sdkError (msg : String)

/-- `IResponse` for a list request: `IListObjectsResponse {statusCode,
listResultXml}` or `IErrorResponse {statusCode, errorMessage}`. -/
inductive IResponse where
  | listResult (statusCode : Nat) (listResultXml : Xml)
  | errorResp (statusCode : Nat) (errorMessage : String)

/-- The outcome of an async handler invocation: a returned response, or an
exception/rejection that escaped it. -/
inductive Outcome where
  | response (r : IResponse)
  | unhandledException (msg : String)

/-- Error codes used by the handler (`error/error_code`). -/
inductive ErrorCode where
  | NO_SUCH_KEY

/-- Modelled from the spec: `errorResponse` of `error/error_response` (not
among the sources) builds the gateway error shape for an internally
detected failure; `NoSuchKey` maps to HTTP 404. -/
def errorResponse (code : ErrorCode) (msg : String) : IResponse :=
  match code with
  | ErrorCode.NO_SUCH_KEY => IResponse.errorResp 404 msg

/-- Modelled from the spec: the error-code name `responseForS3Errors`
attaches for an upstream HTTP status (section 4.3: 404 to NoSuchKey, 403
to AccessDenied, 416 to InvalidRange, default InternalError). -/
def s3ErrorName (status : Nat) : String :=
  if status = 404 then "NoSuchKey"
  else if status = 403 then "AccessDenied"
  else if status = 416 then "InvalidRange"
  else "InternalError"

/-- Modelled from the spec: `responseForS3Errors` of `error/error_response`
(not among the sources) forwards the upstream status with the mapped
error-code name. -/
def responseForS3Errors (resp : FetchResponse) : IResponse :=
  IResponse.errorResp resp.status (s3ErrorName resp.status)

/-- `createListObjectsXmlResponse` of the XML transformer (spec-modelled;
total on this typed representation, hence always `some`). -/
def createListObjectsXmlResponse (o : IBaseListObject) : Option Xml :=
  some (serializeListObject o)

/-- `ListObjectsHandler.writeResponse` (handler lines 297-314): serialize,
with serialization failure mapped to a 500 error response. -/
def writeResponse (objectResponse : IBaseListObject) : IResponse :=
  match createListObjectsXmlResponse objectResponse with
  | none => IResponse.errorResp 500 "The Lambda function failed to transform the result to XML"
  | some xml => IResponse.listResult 200 xml

/-- A `Contents` entry filtered away by the handler: zero size and key
ending in `/` (handler line 248). -/
def isDirMarker (c : ListContent) : Bool :=
  c.Size == some 0 && endsWithJs c.Key "/"

/-- The `objectResponse` the handler builds from the storage SDK listing
(handler lines 237-254): defaults for `IsTruncated`/`MaxKeys`, keys and
dates defaulted to the empty string, directory markers filtered out.
An absent `Contents` is modelled as the empty list (the source leaves
`undefined` behind an `as any` cast); the spread-copied V2 continuation
fields are carried over, V1 markers are never produced. -/
def buildObjectResponse (r : CfListing) : IBaseListObject where
  IsTruncated := r.IsTruncated.getD false
  Marker := none
  NextMarker := none
  ContinuationToken := r.ContinuationToken
  NextContinuationToken := r.NextContinuationToken
  MaxKeys := r.MaxKeys.getD 0
  Prefix := r.Prefix
  Delimiter := r.Delimiter
  EncodingType := r.EncodingType
  Contents :=
    ((r.Contents.getD []).map (fun c =>
      { Key := c.Key.getD "", LastModified := c.LastModified.getD "", Size := c.Size })).filter
      (fun c => !(isDirMarker c))
  CommonPrefixes := r.CommonPrefixes.getD []

/-- `createListObjectsJsonResponse` of the XML transformer (spec-modelled). -/
def createListObjectsJsonResponse (body : Xml) : Option IBaseListObject :=
  parseListObject body

/-- The response-level core of `handleListObjectsRequestOriginal` (handler
lines 269-290), once the original fetch has resolved: forward upstream
errors, map parse failure to NoSuchKey, otherwise transform and serialize. -/
def handleListObjectsRequestOriginalCore (transformObject : IBaseListObject → IBaseListObject)
    (resp : FetchResponse) : IResponse :=
  if 400 ≤ resp.status then responseForS3Errors resp
  else
    match createListObjectsJsonResponse resp.body with
    | none => errorResponse ErrorCode.NO_SUCH_KEY "Requested key does not exist"
    | some parsedObject => writeResponse (transformObject parsedObject)

/-- `handleListObjectsRequestOriginal` (handler lines 269-290): the fetch
of the original object is awaited with no `try`/`catch`, so a rejection
escapes. -/
def handleListObjectsRequestOriginal (transformObject : IBaseListObject → IBaseListObject)
    (originalFetch : FetchOutcome) : Outcome :=
  match originalFetch with
  | FetchOutcome.networkError msg => Outcome.unhandledException msg
  | FetchOutcome.ok resp => Outcome.response (handleListObjectsRequestOriginalCore transformObject resp)

/-- The `prefix` the handler reads from the decoded input url (handler
lines 222-224): `new URL(decodeURIComponent(inputS3Url)).searchParams.get('prefix')`. -/
def listPrefixParam (inputS3Url : String) : Option String :=
  searchParamsGet (decodeURIComponentJs inputS3Url) "prefix"

/-- The sentinel-bypass condition of `handleListObjectsRequest` (handler
line 224): `url.searchParams.get('prefix')?.startsWith('verify_')`,
`undefined` being falsy. -/
def listBypass (inputS3Url : String) : Bool :=
  ((listPrefixParam inputS3Url).map (fun s => startsWithJs s "verify_")).getD false

/-- `handleListObjectsRequest` (handler lines 220-267). The original
fetch (`makeS3RequestOriginal`) is awaited BEFORE the `try` block, so its
rejection escapes; the `try` covers the storage SDK call, whose thrown
errors become a 500 error response; on success the listing is rebuilt,
transformed and serialized. -/
def handleListObjectsRequest (transformObject : IBaseListObject → IBaseListObject)
    (originalFetch : FetchOutcome) (cf : CfOutcome) (inputS3Url : String) : Outcome :=
  if listBypass inputS3Url then
    handleListObjectsRequestOriginal transformObject originalFetch
  else
    match originalFetch with
    | FetchOutcome.networkError msg => Outcome.unhandledException msg
    | FetchOutcome.ok _ =>
      match cf with
      | CfOutcome.sdkError msg => Outcome.response (IResponse.errorResp 500 msg)
      | CfOutcome.ok listing =>
        Outcome.response (writeResponse (transformObject (buildObjectResponse listing)))

/-! ## `s3objectlambda.ts` — the dispatcher -/

/-- `BaseObjectContext`: the location of the original object. -/
structure BaseObjectContext where
  inputS3Url : String

/-- The invocation event: a context field is "present" exactly when the
corresponding `'... in event'` test succeeds. -/
structure S3ObjectLambdaEvent where
  getObjectContext : Option BaseObjectContext
  headObjectContext : Option BaseObjectContext
  listObjectsContext : Option BaseObjectContext
  listObjectsV2Context : Option BaseObjectContext
  userRequest : UserRequest

/-- Modelled from the spec: `transformListObjectsV1` of
`transform/s3objectlambda_transformer` (not among the sources); the
default user transform is the identity (spec section 9). -/
def transformListObjectsV1 (listObject : IBaseListObject) : IBaseListObject := listObject

/-- Modelled from the spec: `transformListObjectsV2`, likewise identity. -/
def transformListObjectsV2 (listObject : IBaseListObject) : IBaseListObject := listObject

/-- The environment of one invocation: outcomes of the external effects.
`handleGetObjectRequest` and `handleHeadObjectRequest` live in modules
outside the sources, so their outcomes are supplied here; the original
fetch outcome is indexed by the url it is issued for. -/
structure HandlerEnv where
  getObjectOutcome : BaseObjectContext → UserRequest → Outcome
  headObjectOutcome : BaseObjectContext → UserRequest → Outcome
  originalFetch : String → FetchOutcome
  cf : CfOutcome

/-- The outcome of the top-level `handler`: a returned value (`null` is
`ret none`) or an escaped exception/rejection. -/
inductive HandlerResult where
  | ret (v : Option IResponse)
  | exc (msg : String)

/-- The `getObjectContext` branch of `handler` (s3objectlambda.ts
lines 46-48): the get handler is awaited, then `null` is returned. -/
def dispatchGet (env : HandlerEnv) (ctx : BaseObjectContext) (u : UserRequest) : HandlerResult :=
  match env.getObjectOutcome ctx u with
  | Outcome.response _ => HandlerResult.ret none
  | Outcome.unhandledException msg => HandlerResult.exc msg

/-- The `headObjectContext` branch (line 50). -/
def dispatchHead (env : HandlerEnv) (ctx : BaseObjectContext) (u : UserRequest) : HandlerResult :=
  match env.headObjectOutcome ctx u with
  | Outcome.response r => HandlerResult.ret (some r)
  | Outcome.unhandledException msg => HandlerResult.exc msg

/-- The list branches (lines 51-57): a `ListObjectsHandler` is built with
the V1 or V2 transform and its result returned. -/
def dispatchList (transformObject : IBaseListObject → IBaseListObject)
    (originalFetch : FetchOutcome) (cf : CfOutcome) (inputS3Url : String) : HandlerResult :=
  match handleListObjectsRequest transformObject originalFetch cf inputS3Url with
  | Outcome.response r => HandlerResult.ret (some r)
  | Outcome.unhandledException msg => HandlerResult.exc msg

/-- The top-level `handler` (s3objectlambda.ts lines 33-60): `in`-tests in
order, `null` when no context field is present. -/
def handler (env : HandlerEnv) (event : S3ObjectLambdaEvent) : HandlerResult :=
  match event.getObjectContext with
  | some ctx => dispatchGet env ctx event.userRequest
  | none =>
    match event.headObjectContext with
    | some ctx => dispatchHead env ctx event.userRequest
    | none =>
      match event.listObjectsContext with
      | some ctx =>
        dispatchList transformListObjectsV1 (env.originalFetch ctx.inputS3Url) env.cf ctx.inputS3Url
      | none =>
        match event.listObjectsV2Context with
        | some ctx =>
          dispatchList transformListObjectsV2 (env.originalFetch ctx.inputS3Url) env.cf
            ctx.inputS3Url
        | none => HandlerResult.ret none

/-! ## Concrete instances used in the verification -/

/-- A user transform that is not the identity: it bumps `MaxKeys`. -/
def bumpMaxKeys (o : IBaseListObject) : IBaseListObject := { o with MaxKeys := o.MaxKeys + 1 }

/-- Headers carrying a lowercase `range` alongside a `Host` header. -/
def hsRange : List (String × String) := [("Host", "ap.s3.example"), ("range", "bytes=0-5")]

/-- Headers carrying both a lowercase `range` and a lowercase `partnumber`
alongside a `Host` header. -/
def hsRangePart : List (String × String) :=
  [("Host", "ap.s3.example"), ("range", "bytes=0-5"), ("partnumber", "2")]

/-- A well-formed listing without directory markers. -/
def xPlain : IBaseListObject :=
  { IsTruncated := false, Marker := none, NextMarker := none, ContinuationToken := none,
    NextContinuationToken := none, MaxKeys := 5, Prefix := none, Delimiter := none,
    EncodingType := none,
    Contents := [{ Key := "b.txt", LastModified := "2024-01-01T00:00:00.000Z", Size := some 10 }],
    CommonPrefixes := [] }

/-- A listing whose `Contents` holds a directory marker (zero size, key
ending in `/`). -/
def xMarker : IBaseListObject :=
  { IsTruncated := false, Marker := none, NextMarker := none, ContinuationToken := none,
    NextContinuationToken := none, MaxKeys := 0, Prefix := none, Delimiter := none,
    EncodingType := none,
    Contents := [{ Key := "a/", LastModified := "2024-01-01T00:00:00.000Z", Size := some 0 },
      { Key := "b.txt", LastModified := "2024-01-01T00:00:00.000Z", Size := some 10 }],
    CommonPrefixes := [] }

/-- A resolved 200 fetch of the serialized plain listing. -/
def respPlain : FetchResponse := { status := 200, body := serializeListObject xPlain }

/-- A resolved 200 fetch of the serialized marker-bearing listing. -/
def respMarker : FetchResponse := { status := 200, body := serializeListObject xMarker }

/-- A resolved upstream 404. -/
def resp404 : FetchResponse := { status := 404, body := Xml.txt "" }

/-- An input url whose `prefix` query parameter starts with the sentinel. -/
def urlVerify : String := "https://ap.example/bucket?prefix=verify_ping"

/-- An input url that does not trigger the bypass. -/
def urlMain : String := "https://ap.example/bucket?list-type=2"

/-- A storage SDK listing carrying one directory marker and one plain key. -/
def cfMarker : CfListing :=
  { IsTruncated := some false, EncodingType := none, MaxKeys := some 100, Prefix := none,
    Contents := some [⟨some "a/", some "2024-01-01T00:00:00.000Z", some 0⟩,
      ⟨some "b.txt", some "2024-01-01T00:00:00.000Z", some 10⟩],
    Delimiter := none, CommonPrefixes := some [], ContinuationToken := none,
    NextContinuationToken := none }

/-- A user request with no range and no part number. -/
def reqEmpty : UserRequest := { url := "https://ap.example/object", headers := [] }

/-- A user request whose part number appears both as a header and as a
query parameter. -/
def reqPartBoth : UserRequest :=
  { url := "https://ap.example/object?partnumber=1", headers := [("partNumber", "2")] }

/-- A user request carrying only a Range header. -/
def reqRangeOnly : UserRequest :=
  { url := "https://ap.example/object", headers := [("Range", "bytes=0-1")] }

/-- A user request carrying only a part-number query parameter. -/
def reqPartOnly : UserRequest :=
  { url := "https://ap.example/object?partnumber=2", headers := [] }

/-- A range mapper stub used to instantiate `applyRangeOrPartNumber`. -/
def stubMapper : String → List Nat → RangeResponse := fun _ _ => { hasError := true }

/-- A second, distinguishable mapper stub. -/
def stubMapper2 : String → List Nat → RangeResponse :=
  fun _ b => { object := some b, hasError := false }

/-- A header-variant mapper stub. -/
def stubMapperHead : String → List (String × String) → RangeResponse :=
  fun _ _ => { hasError := true }

/-- The invocation environment in which every original fetch rejects with
a network error and the storage SDK call fails. -/
def envNetFail : HandlerEnv :=
  { getObjectOutcome := fun _ _ => Outcome.response (IResponse.errorResp 500 "unused")
    headObjectOutcome := fun _ _ => Outcome.response (IResponse.errorResp 500 "unused")
    originalFetch := fun _ => FetchOutcome.networkError "connect ECONNRESET"
    cf := CfOutcome.sdkError "unused" }

/-- A `listObjectsContext` event for a non-bypass url. -/
def eListNet : S3ObjectLambdaEvent :=
  { getObjectContext := none, headObjectContext := none
    listObjectsContext := some { inputS3Url := "https://ap.example/bucket?list-type=2" }
    listObjectsV2Context := none, userRequest := reqEmpty }

/-- An event carrying none of the four context fields. -/
def eNullEvent : S3ObjectLambdaEvent :=
  { getObjectContext := none, headObjectContext := none, listObjectsContext := none
    listObjectsV2Context := none, userRequest := reqEmpty }

/-! ## Helper lemmas: decimal and boolean text round-trips -/

theorem digitVal_digitChar : ∀ d < 10, digitVal (digitChar d) = some d := by decide

theorem mapMOpt_digitVal (ds : List Nat) (h : ∀ d ∈ ds, d < 10) :
    mapMOpt digitVal (ds.map digitChar) = some ds := by
  induction ds with
  | nil => rfl
  | cons d ds ih =>
    have hd : digitVal (digitChar d) = some d := digitVal_digitChar d (h d (by simp))
    have hds : mapMOpt digitVal (ds.map digitChar) = some ds :=
      ih (fun x hx => h x (by simp [hx]))
    simp [List.map_cons, mapMOpt, hd, hds]

theorem strToNat_mk (l : List Char) (hl : l ≠ []) :
    strToNat ⟨l⟩ = (mapMOpt digitVal l).map (fun ds => Nat.ofDigits 10 ds.reverse) := by
  cases l with
  | nil => exact absurd rfl hl
  | cons c cs => rfl

theorem natDigitsRev_eq_digits : ∀ (fuel n : Nat), n ≤ fuel →
    natDigitsRev fuel n = Nat.digits 10 n := by
  intro fuel
  induction fuel with
  | zero =>
    intro n hn
    interval_cases n
    simp [natDigitsRev]
  | succ fuel ih =>
    intro n hn
    cases n with
    | zero => simp [natDigitsRev]
    | succ m =>
      have hdiv : (m + 1) / 10 ≤ fuel := by
        have := Nat.div_lt_self (Nat.succ_pos m) (by norm_num : 1 < 10)
        omega
      calc natDigitsRev (fuel + 1) (m + 1)
          = ((m + 1) % 10) :: natDigitsRev fuel ((m + 1) / 10) := rfl
        _ = ((m + 1) % 10) :: Nat.digits 10 ((m + 1) / 10) := by rw [ih _ hdiv]
        _ = Nat.digits 10 (m + 1) :=
            (Nat.digits_def' (by norm_num : 1 < 10) (Nat.succ_pos m)).symm

theorem strToNat_natToStr (n : Nat) : strToNat (natToStr n) = some n := by
  cases n with
  | zero => rfl
  | succ m =>
    show strToNat ⟨((natDigitsRev (m + 1) (m + 1)).map digitChar).reverse⟩ = some (m + 1)
    rw [natDigitsRev_eq_digits (m + 1) (m + 1) (Nat.le_refl _)]
    have hne : Nat.digits 10 (m + 1) ≠ [] :=
      Nat.digits_ne_nil_iff_ne_zero.mpr (Nat.succ_ne_zero m)
    have hmapne : ((Nat.digits 10 (m + 1)).map digitChar).reverse ≠ [] := by
      simp [hne]
    have hlt : ∀ d ∈ (Nat.digits 10 (m + 1)).reverse, d < 10 := by
      intro d hd
      exact Nat.digits_lt_base (by norm_num) (List.mem_reverse.mp hd)
    calc strToNat ⟨((Nat.digits 10 (m + 1)).map digitChar).reverse⟩
        = (mapMOpt digitVal ((Nat.digits 10 (m + 1)).map digitChar).reverse).map
            (fun ds => Nat.ofDigits 10 ds.reverse) := strToNat_mk _ hmapne
      _ = (mapMOpt digitVal ((Nat.digits 10 (m + 1)).reverse.map digitChar)).map
            (fun ds => Nat.ofDigits 10 ds.reverse) := by rw [List.map_reverse]
      _ = (some (Nat.digits 10 (m + 1)).reverse).map (fun ds => Nat.ofDigits 10 ds.reverse) := by
            rw [mapMOpt_digitVal _ hlt]
      _ = some (Nat.ofDigits 10 (Nat.digits 10 (m + 1))) := by simp
      _ = some (m + 1) := by rw [Nat.ofDigits_digits]

theorem strToBool_boolToStr (b : Bool) : strToBool (boolToStr b) = some b := by
  cases b <;> rfl

/-! ## Helper lemmas: locating serialized fields -/

theorem findElems_append (n : String) (l1 l2 : List Xml) :
    findElems n (l1 ++ l2) = findElems n l1 ++ findElems n l2 := by
  simp [findElems, List.filter_append]

theorem findElems_single (n m : String) (ch : List Xml) :
    findElems n [Xml.elem m ch] = if m = n then [Xml.elem m ch] else [] := by
  by_cases h : m = n
  · simp [findElems, elemName, List.filter, h]
  · have hb : (m == n) = false := beq_eq_false_iff_ne.mpr h
    simp [findElems, elemName, List.filter, h, hb]

theorem findElems_optSer (n m : String) (o : Option String) :
    findElems n (optSer m o) = if m = n then optSer m o else [] := by
  cases o with
  | none => simp [optSer, findElems]
  | some s =>
    by_cases h : m = n
    · simp [optSer, findElems, elemName, List.filter, h]
    · have hb : (m == n) = false := beq_eq_false_iff_ne.mpr h
      simp [optSer, findElems, elemName, List.filter, h, hb]

theorem findElems_map_named (f : α → Xml) (m : String) (hf : ∀ a, elemName (f a) = some m)
    (n : String) (l : List α) :
    findElems n (l.map f) = if m = n then l.map f else [] := by
  induction l with
  | nil => by_cases h : m = n <;> simp [findElems, h]
  | cons a l ih =>
    by_cases h : m = n
    · simp [findElems, List.filter, hf, h] at ih ⊢
    · have hb : (m == n) = false := beq_eq_false_iff_ne.mpr h
      simp [findElems, List.filter, hf, h, hb] at ih ⊢

theorem findElems_contents (n : String) (cs : List ListContent) :
    findElems n (cs.map serializeContent) = if "Contents" = n then cs.map serializeContent
      else [] :=
  findElems_map_named serializeContent "Contents" (fun _ => rfl) n cs

theorem findElems_cpfx (n : String) (cps : List String) :
    findElems n (cps.map serializeCommonPfx) = if "CommonPrefixes" = n then
      cps.map serializeCommonPfx else [] :=
  findElems_map_named serializeCommonPfx "CommonPrefixes" (fun _ => rfl) n cps

theorem findElems_cons_elem (n m : String) (ch : List Xml) (rest : List Xml) :
    findElems n (Xml.elem m ch :: rest) =
      (if m = n then [Xml.elem m ch] else []) ++ findElems n rest := by
  by_cases h : m = n
  · simp [findElems, elemName, List.filter, h]
  · have hb : (m == n) = false := beq_eq_false_iff_ne.mpr h
    simp [findElems, elemName, List.filter, h, hb]

theorem reqText_of (n : String) (l : List Xml) (s : String)
    (h : findElems n l = [Xml.elem n [Xml.txt s]]) : reqText n l = some s := by
  simp [reqText, h, textOf]

theorem optText_of (n : String) (l : List Xml) (o : Option String)
    (h : findElems n l = optSer n o) : optText n l = some o := by
  cases o with
  | none => simp [optSer] at h; simp [optText, h]
  | some s => simp [optSer] at h; simp [optText, h, textOf]

theorem optNatText_of (n : String) (l : List Xml) (o : Option Nat)
    (h : findElems n l = optSer n (o.map natToStr)) : optNatText n l = some o := by
  cases o with
  | none => simp [optNatText, optText_of n l none (by simpa using h)]
  | some k =>
    have := optText_of n l (some (natToStr k)) (by simpa using h)
    simp [optNatText, this, strToNat_natToStr]

/-! ## Helper lemmas: the parse/serialize round-trip -/

theorem parseContent_serializeContent (c : ListContent) :
    parseContent (serializeContent c) = some c := by
  obtain ⟨k, lm, sz⟩ := c
  cases sz with
  | none => rfl
  | some sn =>
    show ((strToNat (natToStr sn)).map some).map
        (fun sz => ({ Key := k, LastModified := lm, Size := sz } : ListContent)) =
      some { Key := k, LastModified := lm, Size := some sn }
    rw [strToNat_natToStr]
    rfl

theorem parseCommonPfx_serializeCommonPfx (p : String) :
    parseCommonPfx (serializeCommonPfx p) = some p := rfl

theorem mapMOpt_parseContent (cs : List ListContent) :
    mapMOpt parseContent (cs.map serializeContent) = some cs := by
  induction cs with
  | nil => rfl
  | cons c cs ih => simp [List.map_cons, mapMOpt, parseContent_serializeContent, ih]

theorem mapMOpt_parseCommonPfx (cps : List String) :
    mapMOpt parseCommonPfx (cps.map serializeCommonPfx) = some cps := by
  induction cps with
  | nil => rfl
  | cons p cps ih => simp [List.map_cons, mapMOpt, parseCommonPfx_serializeCommonPfx, ih]

theorem parseListObject_fields (l : List Xml) (it : Bool) (mk : Nat)
    (mrk nmrk ct nct pfx dl et : Option String) (cs : List ListContent) (cps : List String)
    (hIT : reqText "IsTruncated" l = some (boolToStr it))
    (hMK : reqText "MaxKeys" l = some (natToStr mk))
    (hMrk : optText "Marker" l = some mrk)
    (hNMrk : optText "NextMarker" l = some nmrk)
    (hCt : optText "ContinuationToken" l = some ct)
    (hNct : optText "NextContinuationToken" l = some nct)
    (hPfx : optText "Prefix" l = some pfx)
    (hDl : optText "Delimiter" l = some dl)
    (hEt : optText "EncodingType" l = some et)
    (hCS : mapMOpt parseContent (findElems "Contents" l) = some cs)
    (hCPS : mapMOpt parseCommonPfx (findElems "CommonPrefixes" l) = some cps) :
    parseListObject (Xml.elem "ListBucketResult" l) =
      some ⟨it, mrk, nmrk, ct, nct, mk, pfx, dl, et, cs, cps⟩ := by
  simp [parseListObject, hIT, hMK, hMrk, hNMrk, hCt, hNct, hPfx, hDl, hEt, hCS, hCPS,
    strToBool_boolToStr, strToNat_natToStr]

/-- The round-trip law of the XML list transformer, as a reusable lemma. -/
theorem parse_serialize_roundtrip (x : IBaseListObject) :
    parseListObject (serializeListObject x) = some x := by
  obtain ⟨it, mrk, nmrk, ct, nct, mk, pfx, dl, et, cs, cps⟩ := x
  apply parseListObject_fields
  · apply reqText_of
    simp [findElems_append, findElems_single, findElems_cons_elem, findElems_optSer,
      findElems_contents, findElems_cpfx]
  · apply reqText_of
    simp [findElems_append, findElems_single, findElems_cons_elem, findElems_optSer,
      findElems_contents, findElems_cpfx]
  · apply optText_of
    simp [findElems_append, findElems_single, findElems_cons_elem, findElems_optSer,
      findElems_contents, findElems_cpfx]
  · apply optText_of
    simp [findElems_append, findElems_single, findElems_cons_elem, findElems_optSer,
      findElems_contents, findElems_cpfx]
  · apply optText_of
    simp [findElems_append, findElems_single, findElems_cons_elem, findElems_optSer,
      findElems_contents, findElems_cpfx]
  · apply optText_of
    simp [findElems_append, findElems_single, findElems_cons_elem, findElems_optSer,
      findElems_contents, findElems_cpfx]
  · apply optText_of
    simp [findElems_append, findElems_single, findElems_cons_elem, findElems_optSer,
      findElems_contents, findElems_cpfx]
  · apply optText_of
    simp [findElems_append, findElems_single, findElems_cons_elem, findElems_optSer,
      findElems_contents, findElems_cpfx]
  · apply optText_of
    simp [findElems_append, findElems_single, findElems_cons_elem, findElems_optSer,
      findElems_contents, findElems_cpfx]
  · rw [show findElems "Contents"
        ([Xml.elem "IsTruncated" [Xml.txt (boolToStr it)]]
          ++ optSer "Marker" mrk ++ optSer "NextMarker" nmrk
          ++ optSer "ContinuationToken" ct ++ optSer "NextContinuationToken" nct
          ++ [Xml.elem "MaxKeys" [Xml.txt (natToStr mk)]]
          ++ optSer "Prefix" pfx ++ optSer "Delimiter" dl ++ optSer "EncodingType" et
          ++ cs.map serializeContent ++ cps.map serializeCommonPfx) = cs.map serializeContent
      from by
        simp [findElems_append, findElems_single, findElems_cons_elem, findElems_optSer,
          findElems_contents, findElems_cpfx]]
    exact mapMOpt_parseContent cs
  · rw [show findElems "CommonPrefixes"
        ([Xml.elem "IsTruncated" [Xml.txt (boolToStr it)]]
          ++ optSer "Marker" mrk ++ optSer "NextMarker" nmrk
          ++ optSer "ContinuationToken" ct ++ optSer "NextContinuationToken" nct
          ++ [Xml.elem "MaxKeys" [Xml.txt (natToStr mk)]]
          ++ optSer "Prefix" pfx ++ optSer "Delimiter" dl ++ optSer "EncodingType" et
          ++ cs.map serializeContent ++ cps.map serializeCommonPfx) = cps.map serializeCommonPfx
      from by
        simp [findElems_append, findElems_single, findElems_cons_elem, findElems_optSer,
          findElems_contents, findElems_cpfx]]
    exact mapMOpt_parseCommonPfx cps

/-! ## C9 — the round-trip law -/

/-- C9: for every well-formed `ListObject` (the typed representation rules
out the unicode-escaping ambiguities), parsing the serialization yields
the object back: `parse (serialize x) = x`. -/
theorem claim_C9_parse_serialize (x : IBaseListObject) :
    parseListObject (serializeListObject x) = some x :=
  parse_serialize_roundtrip x

/-! ## C7 — `applyRangeOrPartNumber` honors exactly one selector -/

/-- C7: `applyRangeOrPartNumber` (and its headers variant) honors exactly
one of range or part number, range first: when a range is present the
result IS the range mapper's result (and the part-number mapper is never
consulted); when no range but a part number is present the result IS the
part-number mapper's result (and the range mapper is never consulted);
and when neither is present the unmodified buffer/headers come back with
`hasError = false`. -/
theorem claim_C7_applyRangeOrPartNumber
    (mR mP mR' mP' : String → List Nat → RangeResponse)
    (hR hP hR' hP' : String → List (String × String) → RangeResponse)
    (buf : List Nat) (hdrs : List (String × String)) (req : UserRequest) :
    (∀ r, getRange req = some r →
      applyRangeOrPartNumber mR mP buf req = mR r buf ∧
      applyRangeOrPartNumberHeaders hR hP hdrs req = hR r hdrs) ∧
    (∀ p, getRange req = none → getPartNumber req = some p →
      applyRangeOrPartNumber mR mP buf req = mP p buf ∧
      applyRangeOrPartNumberHeaders hR hP hdrs req = hP p hdrs) ∧
    (getRange req = none → getPartNumber req = none →
      applyRangeOrPartNumber mR mP buf req = { object := some buf, hasError := false } ∧
      applyRangeOrPartNumberHeaders hR hP hdrs req = { headers := some hdrs, hasError := false }) ∧
    (getRange req ≠ none →
      applyRangeOrPartNumber mR mP buf req = applyRangeOrPartNumber mR mP' buf req ∧
      applyRangeOrPartNumberHeaders hR hP hdrs req =
        applyRangeOrPartNumberHeaders hR hP' hdrs req) ∧
    (getRange req = none →
      applyRangeOrPartNumber mR mP buf req = applyRangeOrPartNumber mR' mP buf req ∧
      applyRangeOrPartNumberHeaders hR hP hdrs req =
        applyRangeOrPartNumberHeaders hR' hP hdrs req) := by
  refine ⟨?_, ?_, ?_, ?_, ?_⟩
  · intro r hr
    simp [applyRangeOrPartNumber, applyRangeOrPartNumberHeaders, hr]
  · intro p hr hp
    simp [applyRangeOrPartNumber, applyRangeOrPartNumberHeaders, hr, hp]
  · intro hr hp
    simp [applyRangeOrPartNumber, applyRangeOrPartNumberHeaders, hr, hp]
  · intro hr
    cases hrc : getRange req with
    | none => exact absurd hrc hr
    | some r => simp [applyRangeOrPartNumber, applyRangeOrPartNumberHeaders, hrc]
  · intro hr
    cases hpc : getPartNumber req with
    | none => simp [applyRangeOrPartNumber, applyRangeOrPartNumberHeaders, hr, hpc]
    | some p => simp [applyRangeOrPartNumber, applyRangeOrPartNumberHeaders, hr, hpc]

/-- Witness for C7 at concrete requests exercising all three branches:
range selected (header `Range: bytes=0-1`), part number selected (query
`partnumber=2`), and neither present. -/
theorem claim_C7_witness :
    (applyRangeOrPartNumber stubMapper stubMapper2 [1, 2, 3] reqRangeOnly =
        stubMapper "bytes=0-1" [1, 2, 3] ∧
      applyRangeOrPartNumberHeaders stubMapperHead stubMapperHead [("etag", "x")] reqRangeOnly =
        stubMapperHead "bytes=0-1" [("etag", "x")]) ∧
    applyRangeOrPartNumber stubMapper stubMapper2 [1, 2, 3] reqPartOnly =
      stubMapper2 "2" [1, 2, 3] ∧
    applyRangeOrPartNumber stubMapper stubMapper2 [1, 2, 3] reqEmpty =
      { object := some [1, 2, 3], hasError := false } :=
  ⟨(claim_C7_applyRangeOrPartNumber stubMapper stubMapper2 stubMapper stubMapper2
      stubMapperHead stubMapperHead stubMapperHead stubMapperHead
      [1, 2, 3] [("etag", "x")] reqRangeOnly).1 "bytes=0-1" rfl,
    ((claim_C7_applyRangeOrPartNumber stubMapper stubMapper2 stubMapper stubMapper2
      stubMapperHead stubMapperHead stubMapperHead stubMapperHead
      [1, 2, 3] [("etag", "x")] reqPartOnly).2.1 "2" rfl rfl).1,
    ((claim_C7_applyRangeOrPartNumber stubMapper stubMapper2 stubMapper stubMapper2
      stubMapperHead stubMapperHead stubMapperHead stubMapperHead
      [1, 2, 3] [("etag", "x")] reqEmpty).2.2.1 rfl rfl).1⟩

/-! ## C3 — extraction of range and part number -/

/-- C3 counterexample: a part number supplied as a header is ignored; with
a header `partNumber: 2` and a query parameter `partNumber=1`,
`getPartNumber` returns the query value, not the header value the claim's
precedence rule demands. -/
theorem claim_C3_counterexample :
    getPartNumber reqPartBoth = some "1" ∧ (some "1" : Option String) ≠ some "2" :=
  ⟨rfl, by decide⟩

/-- C3 amended: `getRange` looks headers up case-insensitively and prefers
them over the query parameter (the last header whose lowercased name is
`range` wins); `getPartNumber`, however, reads only the query parameter —
its result does not depend on the headers at all. -/
theorem claim_C3_amended :
    (∀ (url : String) (hs : List (String × String)) (k v : String), lowerStr k = "range" →
      getRange { url := url, headers := hs ++ [(k, v)] } = some v) ∧
    (∀ (url : String) (hs hs' : List (String × String)),
      getPartNumber { url := url, headers := hs } = getPartNumber { url := url, headers := hs' }) := by
  constructor
  · intro url hs k v hk
    have h1 : lowerStr RANGE = "range" := rfl
    have hfind : jsMapLowerGet (hs ++ [(k, v)]) "range" = some v := by
      unfold jsMapLowerGet
      rw [List.reverse_append]
      have hrev : ([(k, v)] : List (String × String)).reverse ++ hs.reverse =
          (k, v) :: hs.reverse := rfl
      rw [hrev, List.find?_cons_of_pos _ (by simp [hk])]
      rfl
    simp [getRange, h1, hfind]
  · intro url hs hs'
    rfl

/-- Witness for C3: the header `RANGE` (any casing, set last) wins over
the query parameter; `getPartNumber` is header-independent. -/
theorem claim_C3_witness :
    getRange ⟨"https://ap.example/object?range=qqq", [("Range", "X"), ("RANGE", "hdr")]⟩ =
      some "hdr" ∧
    getPartNumber ⟨"https://ap.example/object?partnumber=3", [("partNumber", "9")]⟩ =
      getPartNumber ⟨"https://ap.example/object?partnumber=3", []⟩ :=
  ⟨claim_C3_amended.1 "https://ap.example/object?range=qqq" [("Range", "X")] "RANGE" "hdr" rfl,
    claim_C3_amended.2 "https://ap.example/object?partnumber=3" [("partNumber", "9")] []⟩

/-! ## C1 — headers on the signed/fetched backing-store request -/

theorem jsGet_removeSigned (hs : List (String × String)) (k : String)
    (hk : headersToBePresignedRemove.contains k = false) :
    jsGet (removeSignedRequestHeaders hs) k = jsGet hs k := by
  induction hs with
  | nil => rfl
  | cons p hs ih =>
    cases hcon : headersToBePresignedRemove.contains p.1 with
    | true =>
      have hmem : p.1 ∈ headersToBePresignedRemove := List.elem_iff.mp hcon
      have hne2 : ¬((fun q : String × String => q.1 == k) p = true) := by
        simp only [beq_iff_eq]
        intro he
        rw [he] at hcon
        rw [hk] at hcon
        cases hcon
      have e1 : removeSignedRequestHeaders (p :: hs) = removeSignedRequestHeaders hs := by
        unfold removeSignedRequestHeaders
        exact List.filter_cons_of_neg (by simp [hmem])
      have e2 : jsGet (p :: hs) k = jsGet hs k := by
        unfold jsGet
        rw [List.find?_cons_of_neg hs hne2]
      rw [e1, e2]
      exact ih
    | false =>
      have hmem : p.1 ∉ headersToBePresignedRemove := by
        intro hm
        have h2 : headersToBePresignedRemove.contains p.1 = true := List.elem_iff.mpr hm
        rw [hcon] at h2
        cases h2
      have e1 : removeSignedRequestHeaders (p :: hs) = p :: removeSignedRequestHeaders hs := by
        unfold removeSignedRequestHeaders
        exact List.filter_cons_of_pos (by simp [hmem])
      rw [e1]
      cases hpk : (p.1 == k) with
      | true =>
        have hpk2 : ((fun q : String × String => q.1 == k) p) = true := hpk
        unfold jsGet
        rw [List.find?_cons_of_pos (removeSignedRequestHeaders hs) hpk2,
          List.find?_cons_of_pos hs hpk2]
      | false =>
        have hpk2 : ¬((fun q : String × String => q.1 == k) p = true) := by
          intro hx
          have hx2 : (p.1 == k) = true := hx
          rw [hpk] at hx2
          cases hx2
        unfold jsGet
        rw [List.find?_cons_of_neg (removeSignedRequestHeaders hs) hpk2,
          List.find?_cons_of_neg hs hpk2]
        exact ih

/-- C1 counterexample: with a user header `range: bytes=0-5`, the fetched
request's headers still carry `range`, and the signed `GetObjectCommand`
carries the `Range` parameter — range headers are not stripped before
signing. -/
theorem claim_C1_counterexample :
    makeS3RequestFetchHeaders hsRange = [("range", "bytes=0-5")] ∧
    makeS3RequestSignedRange hsRange = some "bytes=0-5" :=
  ⟨rfl, rfl⟩

/-- C1 amended: `removeSignedRequestHeaders` strips exactly the headers on
its fixed list (`Host`/`host` and the conditional/checksum headers) — no
surviving header is on that list — but range and part-number headers are
NOT stripped: whenever the user request carries a non-empty `range`
(resp. `partnumber`) header, the fetched request carries it too and the
signed command carries it as its `Range` (resp. parsed `PartNumber`)
parameter. -/
theorem claim_C1_amended (hs : List (String × String)) (v w : String) :
    (∀ p ∈ removeSignedRequestHeaders hs, headersToBePresignedRemove.contains p.1 = false) ∧
    (jsGet hs "range" = some v → v ≠ "" →
      ("range", v) ∈ makeS3RequestFetchHeaders hs ∧ makeS3RequestSignedRange hs = some v) ∧
    (jsGet hs "partnumber" = some w → w ≠ "" →
      ("partnumber", w) ∈ makeS3RequestFetchHeaders hs ∧
      makeS3RequestSignedPartNumber hs = parseIntJs w) := by
  refine ⟨?_, ?_, ?_⟩
  · intro p hp
    have := List.of_mem_filter hp
    simpa using this
  · intro hr hv
    have hR : jsGet (removeSignedRequestHeaders hs) "range" = some v := by
      rw [jsGet_removeSigned hs "range" (by decide)]
      exact hr
    have ht : truthyOpt (jsGet (removeSignedRequestHeaders hs) "range") = some v := by
      rw [hR]
      simp [truthyOpt, hv]
    refine ⟨?_, ?_⟩
    · simp [makeS3RequestFetchHeaders, ht]
    · simp [makeS3RequestSignedRange, ht]
  · intro hp hw
    have hP : jsGet (removeSignedRequestHeaders hs) "partnumber" = some w := by
      rw [jsGet_removeSigned hs "partnumber" (by decide)]
      exact hp
    have ht : truthyOpt (jsGet (removeSignedRequestHeaders hs) "partnumber") = some w := by
      rw [hP]
      simp [truthyOpt, hw]
    refine ⟨?_, ?_⟩
    · simp [makeS3RequestFetchHeaders, ht]
    · simp [makeS3RequestSignedPartNumber, ht]

/-- Witness for C1 at the concrete headers `Host` + `range` + `partnumber`. -/
theorem claim_C1_witness :
    (("range", "bytes=0-5") ∈ makeS3RequestFetchHeaders hsRangePart ∧
      makeS3RequestSignedRange hsRangePart = some "bytes=0-5") ∧
    ("partnumber", "2") ∈ makeS3RequestFetchHeaders hsRangePart ∧
    makeS3RequestSignedPartNumber hsRangePart = parseIntJs "2" :=
  ⟨(claim_C1_amended hsRangePart "bytes=0-5" "2").2.1 rfl (by decide),
    (claim_C1_amended hsRangePart "bytes=0-5" "2").2.2 rfl (by decide)⟩

/-! ## Helper lemma: the main list path -/

theorem handleList_main (t : IBaseListObject → IBaseListObject) (resp : FetchResponse)
    (cf : CfListing) (url : String) (h : listBypass url = false) :
    handleListObjectsRequest t (FetchOutcome.ok resp) (CfOutcome.ok cf) url =
      Outcome.response (writeResponse (t (buildObjectResponse cf))) := by
  simp [handleListObjectsRequest, h]

/-! ## C4 — directory-marker filtering -/

/-- C4 amended: on the main list path the handler builds the object from
the second store's listing with directory markers (`Size = 0`, key ending
in `/`) filtered out BEFORE the transform is applied — the `ListObject`
handed to the transform never contains one — but the bypass/original path
applies no such filter (see the counterexample). -/
theorem claim_C4_amended (t : IBaseListObject → IBaseListObject) (resp : FetchResponse)
    (cf : CfListing) (url : String) (h : listBypass url = false) :
    handleListObjectsRequest t (FetchOutcome.ok resp) (CfOutcome.ok cf) url =
      Outcome.response (writeResponse (t (buildObjectResponse cf))) ∧
    ∀ c ∈ (buildObjectResponse cf).Contents, isDirMarker c = false := by
  refine ⟨handleList_main t resp cf url h, ?_⟩
  intro c hc
  have h2 := List.of_mem_filter hc
  simpa using h2

/-- Witness for C4 on the main path at a concrete listing holding a
directory marker. -/
theorem claim_C4_witness :
    handleListObjectsRequest transformListObjectsV2 (FetchOutcome.ok respPlain)
      (CfOutcome.ok cfMarker) urlMain =
      Outcome.response (writeResponse (transformListObjectsV2 (buildObjectResponse cfMarker))) :=
  (claim_C4_amended transformListObjectsV2 respPlain cfMarker urlMain rfl).1

/-- C4 counterexample: on the bypass path (sentinel prefix) a backing-store
response holding a directory marker is parsed and handed to the transform
unfiltered, and the marker survives into the 200 response — `xMarker`'s
first entry is a directory marker. -/
theorem claim_C4_counterexample :
    handleListObjectsRequest transformListObjectsV1 (FetchOutcome.ok respMarker)
      (CfOutcome.sdkError "unused") urlVerify =
      Outcome.response (IResponse.listResult 200 (serializeListObject xMarker)) ∧
    xMarker.Contents.head? = some ⟨"a/", "2024-01-01T00:00:00.000Z", some 0⟩ ∧
    isDirMarker ⟨"a/", "2024-01-01T00:00:00.000Z", some 0⟩ = true :=
  ⟨rfl, rfl, rfl⟩

/-! ## C2 — the sentinel bypass -/

/-- C2 amended: a `prefix` starting with `verify_` routes the request to
`handleListObjectsRequestOriginal`; that path skips the second-store
re-listing and the marker filtering, but it does NOT skip the transform:
on a successful fetch it returns the serialization of the TRANSFORMED
parsed original. -/
theorem claim_C2_amended (t : IBaseListObject → IBaseListObject) (fo : FetchOutcome)
    (cf : CfOutcome) (url : String) (h : listBypass url = true) :
    handleListObjectsRequest t fo cf url = handleListObjectsRequestOriginal t fo ∧
    (∀ (resp : FetchResponse) (x : IBaseListObject), fo = FetchOutcome.ok resp →
      resp.status < 400 → parseListObject resp.body = some x →
      handleListObjectsRequest t fo cf url = Outcome.response (writeResponse (t x))) := by
  constructor
  · simp [handleListObjectsRequest, h]
  · intro resp x hfo hst hp
    subst hfo
    have hnot : ¬(400 ≤ resp.status) := by omega
    simp [handleListObjectsRequest, h, handleListObjectsRequestOriginal,
      handleListObjectsRequestOriginalCore, hnot, createListObjectsJsonResponse, hp]

/-- Witness for C2 at a concrete bypass url and non-identity transform. -/
theorem claim_C2_witness :
    handleListObjectsRequest bumpMaxKeys (FetchOutcome.ok respPlain)
      (CfOutcome.sdkError "unused") urlVerify =
      Outcome.response (writeResponse (bumpMaxKeys xPlain)) :=
  (claim_C2_amended bumpMaxKeys (FetchOutcome.ok respPlain) (CfOutcome.sdkError "unused")
    urlVerify rfl).2 respPlain xPlain rfl (by decide) (parse_serialize_roundtrip xPlain)

/-- C2 counterexample: with a non-identity transform, the bypass path does
not return the parsed-and-reserialized original — the transform is applied
(here `MaxKeys` comes back bumped), so the result differs from the
reserialized original. -/
theorem claim_C2_counterexample :
    handleListObjectsRequest bumpMaxKeys (FetchOutcome.ok respPlain)
      (CfOutcome.sdkError "unused") urlVerify =
      Outcome.response (IResponse.listResult 200 (serializeListObject (bumpMaxKeys xPlain))) ∧
    serializeListObject (bumpMaxKeys xPlain) ≠ serializeListObject xPlain := by
  refine ⟨rfl, ?_⟩
  intro hser
  have hp := congrArg parseListObject hser
  rw [parse_serialize_roundtrip, parse_serialize_roundtrip] at hp
  have hx : bumpMaxKeys xPlain = xPlain := Option.some.inj hp
  have hmk := congrArg IBaseListObject.MaxKeys hx
  simp [bumpMaxKeys] at hmk

/-! ## C6 — upstream errors and transformation -/

/-- C6 amended: on the original/bypass list path an upstream status of 400
or more is forwarded through `responseForS3Errors` without the transform
being invoked; on the main list path, however, the status of the original
fetch is ignored entirely — the handler proceeds with the second store's
listing and the transform regardless of that status. -/
theorem claim_C6_amended :
    (∀ (t : IBaseListObject → IBaseListObject) (resp : FetchResponse), 400 ≤ resp.status →
      handleListObjectsRequestOriginalCore t resp = responseForS3Errors resp) ∧
    (∀ (t : IBaseListObject → IBaseListObject) (resp : FetchResponse) (cf : CfListing)
      (url : String), listBypass url = false →
      handleListObjectsRequest t (FetchOutcome.ok resp) (CfOutcome.ok cf) url =
        Outcome.response (writeResponse (t (buildObjectResponse cf)))) := by
  constructor
  · intro t resp h
    simp [handleListObjectsRequestOriginalCore, h]
  · intro t resp cf url h
    exact handleList_main t resp cf url h

/-- Witness for C6 at a concrete upstream 404 on the original path. -/
theorem claim_C6_witness :
    handleListObjectsRequestOriginalCore transformListObjectsV1 resp404 =
      responseForS3Errors resp404 :=
  claim_C6_amended.1 transformListObjectsV1 resp404 (by decide)

/-- C6 counterexample: on the main path an upstream 404 from the original
fetch is NOT forwarded — the handler returns a 200 list result built by
the transform from the second store's listing. -/
theorem claim_C6_counterexample :
    handleListObjectsRequest bumpMaxKeys (FetchOutcome.ok resp404) (CfOutcome.ok cfMarker)
      urlMain =
      Outcome.response (IResponse.listResult 200
        (serializeListObject (bumpMaxKeys (buildObjectResponse cfMarker)))) ∧
    resp404.status = 404 ∧
    handleListObjectsRequest bumpMaxKeys (FetchOutcome.ok resp404) (CfOutcome.ok cfMarker)
      urlMain ≠ Outcome.response (responseForS3Errors resp404) := by
  refine ⟨rfl, rfl, ?_⟩
  intro hx
  have hx2 : Outcome.response (IResponse.listResult 200
      (serializeListObject (bumpMaxKeys (buildObjectResponse cfMarker)))) =
      Outcome.response (IResponse.errorResp 404 "NoSuchKey") := hx
  injection hx2 with h3
  exact IResponse.noConfusion h3

/-! ## C5 — exceptions escaping the top-level handler -/

/-- C5: contrary to the claim, not every code path yields a response — a
network failure during the fetch of the original object (awaited outside
the `try`/`catch`) escapes `handleListObjectsRequest` and the top-level
handler as an unhandled rejection. -/
theorem claim_C5_unhandled_rejection :
    handler envNetFail eListNet = HandlerResult.exc "connect ECONNRESET" := rfl

/-! ## C8 — dispatch on the event's context field -/

/-- C8: the dispatcher routes on the four context fields in order —
`getObjectContext`, `headObjectContext`, `listObjectsContext` (V1
transform), `listObjectsV2Context` (V2 transform) — and an event carrying
none of the four yields the null result. -/
theorem claim_C8_dispatch (env : HandlerEnv) (e : S3ObjectLambdaEvent)
    (ctx : BaseObjectContext) :
    (e.getObjectContext = some ctx → handler env e = dispatchGet env ctx e.userRequest) ∧
    (e.getObjectContext = none → e.headObjectContext = some ctx →
      handler env e = dispatchHead env ctx e.userRequest) ∧
    (e.getObjectContext = none → e.headObjectContext = none →
      e.listObjectsContext = some ctx →
      handler env e = dispatchList transformListObjectsV1 (env.originalFetch ctx.inputS3Url)
        env.cf ctx.inputS3Url) ∧
    (e.getObjectContext = none → e.headObjectContext = none → e.listObjectsContext = none →
      e.listObjectsV2Context = some ctx →
      handler env e = dispatchList transformListObjectsV2 (env.originalFetch ctx.inputS3Url)
        env.cf ctx.inputS3Url) ∧
    (e.getObjectContext = none → e.headObjectContext = none → e.listObjectsContext = none →
      e.listObjectsV2Context = none → handler env e = HandlerResult.ret none) := by
  refine ⟨?_, ?_, ?_, ?_, ?_⟩
  · intro h1
    simp [handler, h1]
  · intro h1 h2
    simp [handler, h1, h2]
  · intro h1 h2 h3
    simp [handler, h1, h2, h3]
  · intro h1 h2 h3 h4
    simp [handler, h1, h2, h3, h4]
  · intro h1 h2 h3 h4
    simp [handler, h1, h2, h3, h4]

/-- Witness for C8 at the event with no context field. -/
theorem claim_C8_witness : handler envNetFail eNullEvent = HandlerResult.ret none :=
  (claim_C8_dispatch envNetFail eNullEvent ⟨"unused"⟩).2.2.2.2 rfl rfl rfl rfl

/-! ## Helper lemmas: lowercasing and percent-decoding -/

theorem charOfNat_small : ∀ n < 123, (Char.ofNat n).toNat = n := by decide

theorem toLower_toLower (c : Char) : c.toLower.toLower = c.toLower := by
  by_cases h : 65 ≤ c.toNat ∧ c.toNat ≤ 90
  · have e : c.toLower = Char.ofNat (c.toNat + 32) := by
      simp [Char.toLower, h.1, h.2]
    have htn : (Char.ofNat (c.toNat + 32)).toNat = c.toNat + 32 :=
      charOfNat_small _ (by omega)
    have hcond : ¬(65 ≤ c.toNat + 32 ∧ c.toNat + 32 ≤ 90) := by omega
    rw [e]
    simp only [Char.toLower, htn]
    rw [if_neg (by omega)]
  · have e : c.toLower = c := by
      simp only [Char.toLower]
      rw [if_neg (by omega)]
    rw [e, e]

theorem toLower_eq_percent (c : Char) (h : c.toLower = '%') : c = '%' := by
  by_cases hc : 65 ≤ c.toNat ∧ c.toNat ≤ 90
  · have e : c.toLower = Char.ofNat (c.toNat + 32) := by
      simp [Char.toLower, hc.1, hc.2]
    have htn : (Char.ofNat (c.toNat + 32)).toNat = c.toNat + 32 :=
      charOfNat_small _ (by omega)
    rw [e] at h
    have h37 := congrArg Char.toNat h
    rw [htn] at h37
    have hp : ('%' : Char).toNat = 37 := rfl
    rw [hp] at h37
    omega
  · have e : c.toLower = c := by
      simp only [Char.toLower]
      rw [if_neg (by omega)]
    rw [e] at h
    exact h

theorem percentDecodeChars_id (l : List Char) (h : ∀ c ∈ l, c ≠ '%') :
    percentDecodeChars l = l := by
  induction l with
  | nil => rfl
  | cons c rest ih =>
    have hc : c ≠ '%' := h c (List.mem_cons_self c rest)
    have hrest : percentDecodeChars rest = rest := ih (fun d hd => h d (List.mem_cons_of_mem c hd))
    unfold percentDecodeChars
    rw [if_neg hc, hrest]

theorem mem_breakAtFirst_fst (sep c : Char) :
    ∀ (l : List Char), c ∈ (breakAtFirst sep l).1 → c ∈ l := by
  intro l
  induction l with
  | nil => intro h; cases h
  | cons a rest ih =>
    by_cases ha : a = sep
    · simp [breakAtFirst, ha]
    · simp only [breakAtFirst, if_neg ha]
      intro h
      rcases List.mem_cons.mp h with h1 | h2
      · exact List.mem_cons.mpr (Or.inl h1)
      · exact List.mem_cons.mpr (Or.inr (ih h2))

theorem mem_breakAtFirst_snd (sep c : Char) :
    ∀ (l r : List Char), (breakAtFirst sep l).2 = some r → c ∈ r → c ∈ l := by
  intro l
  induction l with
  | nil => intro r h; cases h
  | cons a rest ih =>
    intro r hr hc
    by_cases ha : a = sep
    · simp only [breakAtFirst, if_pos ha] at hr
      cases hr
      exact List.mem_cons_of_mem a hc
    · simp only [breakAtFirst, if_neg ha] at hr
      exact List.mem_cons_of_mem a (ih r hr hc)

theorem mem_splitOnChar (sep c : Char) :
    ∀ (l : List Char) (g : List Char), g ∈ splitOnChar sep l → c ∈ g → c ∈ l := by
  intro l
  induction l with
  | nil =>
    intro g hg hc
    simp [splitOnChar] at hg
    subst hg
    cases hc
  | cons a rest ih =>
    intro g hg hc
    cases hrec : splitOnChar sep rest with
    | nil =>
      simp only [splitOnChar, hrec] at hg
      simp at hg
      subst hg
      rcases List.mem_singleton.mp hc with h1
      exact h1 ▸ List.mem_cons_self a rest
    | cons g0 gs =>
      by_cases ha : a = sep
      · simp only [splitOnChar, hrec, if_pos ha] at hg
        rcases List.mem_cons.mp hg with h1 | h2
        · subst h1; cases hc
        · exact List.mem_cons_of_mem a (ih g (hrec ▸ h2) hc)
      · simp only [splitOnChar, hrec, if_neg ha] at hg
        rcases List.mem_cons.mp hg with h1 | h2
        · subst h1
          rcases List.mem_cons.mp hc with h3 | h4
          · exact h3 ▸ List.mem_cons_self a rest
          · exact List.mem_cons_of_mem a
              (ih g0 (hrec ▸ List.mem_cons_self g0 gs) h4)
        · exact List.mem_cons_of_mem a
            (ih g (hrec ▸ List.mem_cons_of_mem g0 h2) hc)

theorem map_self_of (l : List α) (f : α → α) (h : ∀ a ∈ l, f a = a) : l.map f = l := by
  induction l with
  | nil => rfl
  | cons a rest ih =>
    simp [List.map_cons, h a (List.mem_cons_self a rest),
      ih (fun b hb => h b (List.mem_cons_of_mem a hb))]

/-! ## C10 — casing of extracted query values -/

/-- C10 counterexample: the whole URL is lowercased BEFORE percent-decoding,
so a percent-escape can still decode to an uppercase character: the query
value `%42ytes` is extracted as `Bytes`, which is not fully lowercased. -/
theorem claim_C10_counterexample :
    getRange ⟨"https://ap.example/object?range=%42ytes", []⟩ = some "Bytes" ∧
    lowerStr "Bytes" ≠ "Bytes" :=
  ⟨rfl, by decide⟩

/-- C10 amended: a range/part-number value extracted from the query is
computed from the lowercased URL, so for a URL free of percent-escapes the
extracted value is fully lowercased (in particular the claim's example
`BYTES=0-5` is observed as `bytes=0-5`), though a percent-escape may still
decode to an uppercase character; a Range value supplied as a header is
returned with its original casing. -/
theorem claim_C10_amended :
    (∀ (url nm v : String), (∀ c ∈ url.data, c ≠ '%') →
      getQueryParam url nm = some v → lowerStr v = v) ∧
    (∀ (url v : String), getRange ⟨url, [(RANGE, v)]⟩ = some v) := by
  constructor
  · intro url nm v hnp hq
    simp only [getQueryParam] at hq
    have hnp2 : ∀ c ∈ (lowerStr url).data, c ≠ '%' := by
      intro c hc hce
      subst hce
      simp only [lowerStr] at hc
      rw [List.mem_map] at hc
      obtain ⟨d, hd, hdl⟩ := hc
      exact hnp d hd (toLower_eq_percent d hdl)
    cases hbreak : (breakAtFirst '?' (lowerStr url).data).2 with
    | none =>
      simp only [searchParamsGet, hbreak] at hq
      exact Option.noConfusion hq
    | some afterQ =>
      simp only [searchParamsGet, hbreak] at hq
      rw [Option.map_eq_some'] at hq
      obtain ⟨pr, hfind, hv⟩ := hq
      have hprmem := List.mem_of_find?_eq_some hfind
      rw [List.mem_filterMap] at hprmem
      obtain ⟨g, hg, hpair⟩ := hprmem
      cases g with
      | nil => simp [queryPairOf] at hpair
      | cons c0 g0 =>
        simp only [queryPairOf] at hpair
        have hpr := Option.some.inj hpair
        have hsubq : ∀ d, d ∈ (c0 :: g0) → d ∈ (lowerStr url).data := by
          intro d hd
          have h1 : d ∈ afterQ.takeWhile (fun c => !(c = '#')) :=
            mem_splitOnChar '&' d (afterQ.takeWhile (fun c => !(c = '#'))) (c0 :: g0) hg hd
          have h2 : d ∈ afterQ := (List.takeWhile_prefix _).sublist.subset h1
          exact mem_breakAtFirst_snd '?' d (lowerStr url).data afterQ hbreak h2
        have hsubraw : ∀ d ∈ (breakAtFirst '=' (c0 :: g0)).2.getD [], d ∈ (lowerStr url).data := by
          intro d hd
          cases hb2 : (breakAtFirst '=' (c0 :: g0)).2 with
          | none => rw [hb2] at hd; cases hd
          | some r2 =>
            rw [hb2] at hd
            exact hsubq d (mem_breakAtFirst_snd '=' d (c0 :: g0) r2 hb2 hd)
        have hpr2 : pr.2 = formDecodeChars ((breakAtFirst '=' (c0 :: g0)).2.getD []) := by
          rw [← hpr]
        have hnp3 : ∀ d ∈ ((breakAtFirst '=' (c0 :: g0)).2.getD []).map plusToSpace,
            d ≠ '%' := by
          intro d hd
          rw [List.mem_map] at hd
          obtain ⟨d0, hd0, hdps⟩ := hd
          have hd0np : d0 ≠ '%' := hnp2 d0 (hsubraw d0 hd0)
          intro hde
          subst hde
          by_cases hplus : d0 = '+'
          · rw [hplus] at hdps
            exact absurd hdps (by decide)
          · simp only [plusToSpace, if_neg hplus] at hdps
            exact hd0np hdps
        have hdec : formDecodeChars ((breakAtFirst '=' (c0 :: g0)).2.getD []) =
            ((breakAtFirst '=' (c0 :: g0)).2.getD []).map plusToSpace := by
          simp only [formDecodeChars]
          exact percentDecodeChars_id _ hnp3
        have hchar : ∀ a ∈ pr.2, a.toLower = a := by
          intro a ha
          rw [hpr2, hdec] at ha
          rw [List.mem_map] at ha
          obtain ⟨a0, ha0, haps⟩ := ha
          have ha0url : a0 ∈ (lowerStr url).data := hsubraw a0 ha0
          simp only [lowerStr] at ha0url
          rw [List.mem_map] at ha0url
          obtain ⟨d, _, hdl⟩ := ha0url
          by_cases hplus : a0 = '+'
          · rw [← haps]
            simp only [plusToSpace, if_pos hplus]
            decide
          · rw [← haps]
            simp only [plusToSpace, if_neg hplus]
            rw [← hdl]
            exact toLower_toLower d
        rw [← hv]
        exact congrArg (fun l => (⟨l⟩ : String)) (map_self_of pr.2 Char.toLower hchar)
  · intro url v
    rfl

/-- Witness for C10: the claim's own example `BYTES=0-5` comes back as
`bytes=0-5` from the query, and keeps its casing from the header. -/
theorem claim_C10_witness :
    lowerStr "bytes=0-5" = "bytes=0-5" ∧
    getRange ⟨"https://ap.example/object", [(RANGE, "BYTES=0-5")]⟩ = some "BYTES=0-5" :=
  ⟨claim_C10_amended.1 "https://ap.example/object?range=BYTES=0-5" "range" "bytes=0-5"
      (by decide) rfl,
    claim_C10_amended.2 "https://ap.example/object" "BYTES=0-5"⟩

end S3OL
